import Mathlib

/-!
Shallow embedding of the `markdown-insert` preprocessor
(`src/markdown_insert/markdown_insert.py`, the packaged module installed by
`setup.py`; `src/markdown_insert.py` is the legacy duplicate of the same code).

The embedding models the two operations the specification is about:

* `InsertPreprocessor.expand_indices` — the textual line-range expansion
  (`expand_indices(ranges: str) -> list[int]` in the source);
* `InsertPreprocessor.run` — the marker-splicing pass
  (`run(lines: list[str]) -> list[str]` in the source).

Python-level conventions of the model:

* Python exceptions that escape a function are modelled with `Option`:
  `none` is an uncaught `ValueError` propagating to the caller.
* The filesystem is an explicit function `fs : String → Option (List String)`
  mapping a path to the list of lines `open(path).readlines()` would return
  (`none` models `FileNotFoundError`).
* `run` returns the produced output lines together with the list of
  diagnostic lines written to `sys.stderr`, or `none` when an uncaught
  exception aborts the pass.
* Whitespace (`str.strip`, `str.split`, the regex class `\s`) is modelled for
  the ASCII range (space, tab, newline, carriage return, vertical tab, form
  feed); non-ASCII Unicode whitespace and Unicode digits are out of scope.
-/

namespace MarkdownInsert

/-- The ASCII whitespace characters recognised by Python's `str.strip()`,
`str.split()` and the regex class `\s`. -/
def pyIsSpace (c : Char) : Bool :=
  c = ' ' || c = '\t' || c = '\n' || c = '\r' || c = Char.ofNat 11 || c = Char.ofNat 12

/-- Python `str.strip()` on a character list: drop whitespace from both ends. -/
def pyStripList (l : List Char) : List Char :=
  ((l.dropWhile pyIsSpace).reverse.dropWhile pyIsSpace).reverse

/-- Python `str.strip()` on strings, as applied to every inserted line in `run`. -/
def pyStrip (s : String) : String :=
  String.mk (pyStripList s.data)

/-- Accumulator loop for `splitWs`: `acc` holds the reversed current token. -/
def splitWsAux (acc : List Char) : List Char → List (List Char)
  | [] => if acc.isEmpty then [] else [acc.reverse]
  | c :: t =>
    if pyIsSpace c then
      if acc.isEmpty then splitWsAux [] t else acc.reverse :: splitWsAux [] t
    else
      splitWsAux (c :: acc) t

/-- Python `str.split()` with no argument: split on runs of whitespace,
never producing empty tokens. -/
def splitWs (l : List Char) : List (List Char) :=
  splitWsAux [] l

/-- Python `str.split(sep)` for a one-character separator, as in `r.split("-")`:
splitting the empty string yields `[""]`, and separators at the ends yield
empty fields. -/
def splitOnChar (sep : Char) : List Char → List (List Char)
  | [] => [[]]
  | c :: t =>
    if c = sep then
      [] :: splitOnChar sep t
    else
      match splitOnChar sep t with
      | h :: r => (c :: h) :: r
      | [] => [[c]]

/-- After an initial digit, Python `int()` accepts further digits possibly
separated by single underscores (`1_000`), never doubled, leading or trailing. -/
def digitsTail : List Char → Bool
  | [] => true
  | '_' :: c :: t => c.isDigit && digitsTail t
  | c :: t => c.isDigit && digitsTail t

/-- Parse an unsigned digit sequence (with Python's underscore grouping) to its
numeric value; `none` when the shape is not a valid `int()` digit string. -/
def parseDigits (l : List Char) : Option Nat :=
  match l with
  | c :: t =>
    if c.isDigit && digitsTail t then
      some ((l.filter (fun d => d ≠ '_')).foldl (fun a d => a * 10 + (d.toNat - 48)) 0)
    else
      none
  | [] => none

/-- Python `int(s)` on a token: optional surrounding whitespace, optional
sign, then digits; `none` models the `ValueError` raised otherwise. -/
def pyInt (l : List Char) : Option Int :=
  match pyStripList l with
  | '+' :: t => (parseDigits t).map (fun n => (n : Int))
  | '-' :: t => (parseDigits t).map (fun n => -(n : Int))
  | t => (parseDigits t).map (fun n => (n : Int))

/-- Python `list(range(a, b))` over integers: `a, a + 1, …, b - 1`, empty when
`b ≤ a`. -/
def intRange (a b : Int) : List Int :=
  (List.range (b - a).toNat).map (fun k => a + k)

/-- `tuple(map(int, parts))` with `ValueError` propagation: all parts must
parse, and any failure fails the whole conversion. -/
def parseInts : List (List Char) → Option (List Int)
  | [] => some []
  | p :: ps =>
    match pyInt p, parseInts ps with
    | some n, some ns => some (n :: ns)
    | _, _ => none

/-- One iteration of the `expand_indices` loop body on a single token `r`:
first try `i, j = tuple(map(int, r.split("-")))` followed by
`range(i - 1, j)`; on `ValueError` (either parse or unpack) fall back to
`int(r)` and emit `n - 1`; a second `ValueError` propagates (`none`). -/
def expandToken (tok : List Char) : Option (List Int) :=
  match parseInts (splitOnChar '-' tok) with
  | some [i, j] => some (intRange (i - 1) j)
  | _ =>
    match pyInt tok with
    | some n => some [n - 1]
    | none => none

/-- Fold `expandToken` over the token list, concatenating the per-token index
lists in token order and propagating any `ValueError`. -/
def expandAll : List (List Char) → Option (List Int)
  | [] => some []
  | t :: ts =>
    match expandToken t, expandAll ts with
    | some xs, some ys => some (xs ++ ys)
    | _, _ => none

/-- `InsertPreprocessor.expand_indices(ranges)`: strip, split on whitespace,
expand each token; `none` models an uncaught `ValueError`. -/
def expand_indices (ranges : String) : Option (List Int) :=
  expandAll (splitWs (pyStripList ranges.data))

/-- Whether a remainder `t` of the line matches the regex tail `(.+?)\)$`:
`t` must be `src ++ ")"` with `src` nonempty and free of newlines
(`.` does not match a newline). -/
def tailOk (t : List Char) : Bool :=
  t.getLast? = some ')' && 2 ≤ t.length && !(t.dropLast.contains '\n')

/-- Scan for the lazy group split `(.*?)\]\((.+?)\)$` of the marker regex:
return the captured range spec and the remainder after the leftmost `](`
whose tail matches `(.+?)\)$`; the range-spec group cannot cross a newline. -/
def scanRng : List Char → Option (List Char × List Char)
  | ']' :: '(' :: t =>
    if tailOk t then
      some ([], t)
    else
      (scanRng t).map (fun p => (']' :: '(' :: p.1, p.2))
  | c :: t =>
    if c = '\n' then none else (scanRng t).map (fun p => (c :: p.1, p.2))
  | [] => none

/-- `re.finditer(r"^(\s*?)&\[(.*?)\]\((.+?)\)$", line)` restricted to its first
match, returning the three captured groups `(spc, rng, src)`; `$` also matches
just before a single trailing newline. -/
def matchMarker (line : String) : Option (String × String × String) :=
  let cs := if line.data.getLast? = some '\n' then line.data.dropLast else line.data
  match cs.dropWhile pyIsSpace with
  | '&' :: '[' :: rest =>
    (scanRng rest).map
      (fun p => (String.mk (cs.takeWhile pyIsSpace), String.mk p.1, String.mk (p.2.dropLast)))
  | _ => none

/-- The `for i, l in enumerate(f.readlines())` loop of `run` starting at
position `i`: keep line `l` when `not indices or i in indices`, emitting
`f"{spc}{l.strip()}"`. -/
def markerOutputAux (spc : String) (indices : List Int) : Nat → List String → List String
  | _, [] => []
  | i, l :: rest =>
    if indices.isEmpty || decide ((i : Int) ∈ indices) then
      (spc ++ pyStrip l) :: markerOutputAux spc indices (i + 1) rest
    else
      markerOutputAux spc indices (i + 1) rest

/-- The lines a marker with indent `spc` and index list `indices` contributes
for a successfully opened file with lines `fileLines`. -/
def markerOutput (spc : String) (indices : List Int) (fileLines : List String) : List String :=
  markerOutputAux spc indices 0 fileLines

/-- Process one input line of `run`: pass a non-marker line through; for a
marker line, expand the range spec (a `ValueError` there propagates), then
either splice the referenced file or, on `FileNotFoundError`, emit the
diagnostic to stderr and contribute no output lines. -/
def processLine (parent_path : String) (fs : String → Option (List String))
    (line : String) : Option (List String × List String) :=
  match matchMarker line with
  | some (spc, rng, src) =>
    (expand_indices rng).map (fun indices =>
      match fs (parent_path ++ "/" ++ src) with
      | some fileLines => (markerOutput spc indices fileLines, [])
      | none => ([], ["ERROR: \"" ++ parent_path ++ "/" ++ src ++ "\" does not exist."]))
  | none => some ([line], [])

/-- Sequence two per-line results: concatenate their output lines and their
stderr diagnostics, propagating an uncaught exception (`none`) from either. -/
def combine (p q : Option (List String × List String)) :
    Option (List String × List String) :=
  match p, q with
  | some p, some q => some (p.1 ++ q.1, p.2 ++ q.2)
  | _, _ => none

/-- `InsertPreprocessor.run(lines)`: process the lines in order, accumulating
output lines and stderr diagnostics; `none` models an uncaught exception
aborting the whole pass. -/
def run (parent_path : String) (fs : String → Option (List String)) :
    List String → Option (List String × List String)
  | [] => some ([], [])
  | line :: rest => combine (processLine parent_path fs line) (run parent_path fs rest)

end MarkdownInsert

open MarkdownInsert

/-! ### Helper lemmas about the embedded operations -/

theorem splitOnChar_eq_single {sep : Char} {l : List Char} (h : sep ∉ l) :
    splitOnChar sep l = [l] := by
  induction l with
  | nil => rfl
  | cons c t ih =>
    have hc : ¬ (c = sep) := by
      rintro rfl
      exact h (List.mem_cons_self _ _)
    have ht : sep ∉ t := fun hm => h (List.mem_cons_of_mem _ hm)
    simp only [splitOnChar, if_neg hc, ih ht]

theorem splitOnChar_append_cons {sep : Char} {a : List Char} (b : List Char)
    (h : sep ∉ a) : splitOnChar sep (a ++ sep :: b) = a :: splitOnChar sep b := by
  induction a with
  | nil => simp [splitOnChar]
  | cons c t ih =>
    have hc : ¬ (c = sep) := by
      rintro rfl
      exact h (List.mem_cons_self _ _)
    have ht : sep ∉ t := fun hm => h (List.mem_cons_of_mem _ hm)
    simp only [List.cons_append, splitOnChar, if_neg hc, List.append_eq]
    rw [ih ht]

theorem intRange_eq_nil {a b : Int} (h : b ≤ a) : intRange a b = [] := by
  unfold intRange
  have hz : (b - a).toNat = 0 := Int.toNat_of_nonpos (by omega)
  rw [hz]
  rfl

theorem expandToken_single {a : List Char} {n : Int} (hmem : ('-' : Char) ∉ a)
    (h : pyInt a = some n) : expandToken a = some [n - 1] := by
  rw [expandToken, splitOnChar_eq_single hmem]
  simp [parseInts, h]

theorem expandToken_range_tok {a b : List Char} {i j : Int} (ha : ('-' : Char) ∉ a)
    (hb : ('-' : Char) ∉ b) (hia : pyInt a = some i) (hjb : pyInt b = some j) :
    expandToken (a ++ '-' :: b) = some (intRange (i - 1) j) := by
  rw [expandToken, splitOnChar_append_cons b ha, splitOnChar_eq_single hb]
  simp [parseInts, hia, hjb]

theorem markerOutputAux_nil_indices (spc : String) (fl : List String) :
    ∀ i, markerOutputAux spc [] i fl = fl.map (fun l => spc ++ pyStrip l) := by
  induction fl with
  | nil => intro i; rfl
  | cons l rest ih =>
    intro i
    simp [markerOutputAux, ih]

theorem markerOutputAux_sublist (spc : String) (indices : List Int) (fl : List String) :
    ∀ i, (markerOutputAux spc indices i fl).Sublist (fl.map (fun l => spc ++ pyStrip l)) := by
  induction fl with
  | nil => intro i; simp [markerOutputAux]
  | cons l rest ih =>
    intro i
    simp only [markerOutputAux, List.map_cons]
    split
    · exact List.Sublist.cons₂ _ (ih (i + 1))
    · exact List.Sublist.cons _ (ih (i + 1))

theorem markerOutputAux_ext (spc : String) {indices indices' : List Int}
    (he : indices.isEmpty = indices'.isEmpty) (fl : List String) :
    ∀ i, (∀ k : Nat, i ≤ k → k < i + fl.length →
        (((k : Int) ∈ indices) ↔ ((k : Int) ∈ indices'))) →
      markerOutputAux spc indices i fl = markerOutputAux spc indices' i fl := by
  induction fl with
  | nil => intro i _; rfl
  | cons l rest ih =>
    intro i hmem
    have h0 : ((i : Int) ∈ indices) ↔ ((i : Int) ∈ indices') :=
      hmem i le_rfl (by simp)
    have hcond : (indices.isEmpty || decide ((i : Int) ∈ indices)) =
        (indices'.isEmpty || decide ((i : Int) ∈ indices')) := by
      rw [he, decide_eq_decide.mpr h0]
    have htail := ih (i + 1) (fun k hk1 hk2 => hmem k (by omega) (by simp; omega))
    simp only [markerOutputAux, hcond, htail]

theorem processLine_pass (pp : String) (fs : String → Option (List String))
    (line : String) (h : matchMarker line = none) :
    processLine pp fs line = some ([line], []) := by
  simp [processLine, h]

theorem processLine_notFound (pp : String) (fs : String → Option (List String))
    (line spc rng src : String) (idx : List Int)
    (hm : matchMarker line = some (spc, rng, src)) (hr : expand_indices rng = some idx)
    (hf : fs (pp ++ "/" ++ src) = none) :
    processLine pp fs line =
      some ([], ["ERROR: \"" ++ pp ++ "/" ++ src ++ "\" does not exist."]) := by
  simp [processLine, hm, hr, hf]

theorem processLine_found (pp : String) (fs : String → Option (List String))
    (line spc rng src : String) (idx : List Int) (fl : List String)
    (hm : matchMarker line = some (spc, rng, src)) (hr : expand_indices rng = some idx)
    (hf : fs (pp ++ "/" ++ src) = some fl) :
    processLine pp fs line = some (markerOutput spc idx fl, []) := by
  simp [processLine, hm, hr, hf]

theorem combine_none_left (q : Option (List String × List String)) :
    combine none q = none := by
  cases q <;> rfl

theorem combine_none_right (p : Option (List String × List String)) :
    combine p none = none := by
  cases p <;> rfl

theorem combine_some (p q : List String × List String) :
    combine (some p) (some q) = some (p.1 ++ q.1, p.2 ++ q.2) := rfl

theorem combine_nil_left (q : Option (List String × List String)) :
    combine (some ([], [])) q = q := by
  cases q with
  | none => rfl
  | some q => simp [combine]

theorem combine_assoc (p q r : Option (List String × List String)) :
    combine (combine p q) r = combine p (combine q r) := by
  cases p with
  | none => simp [combine_none_left]
  | some p =>
    cases q with
    | none => simp [combine_none_left, combine_none_right]
    | some q =>
      cases r with
      | none => simp [combine_none_right]
      | some r => simp [combine_some, List.append_assoc]

theorem run_append (pp : String) (fs : String → Option (List String))
    (xs ys : List String) :
    run pp fs (xs ++ ys) = combine (run pp fs xs) (run pp fs ys) := by
  induction xs with
  | nil =>
    rw [List.nil_append]
    exact (combine_nil_left _).symm
  | cons l t ih =>
    rw [List.cons_append, run, ih, run, combine_assoc]

/-! ### Claim theorems -/

/-- C3: `expand_indices` maps every well-formed range spec token-wise to
zero-based indices in token order: a single integer token parsing to `n`
yields `[n - 1]`, a token `"i-j"` yields every index from `i - 1` through
`j - 1` in ascending order; in particular
`expand_indices "1-4 7-10 22" = [0,1,2,3,6,7,8,9,21]`,
`expand_indices "3" = [2]`, `expand_indices "2-2" = [1]`, and
`expand_indices "" = []`. -/
theorem C3_expand_indices_tokenwise :
    (∀ (a : List Char) (n : Int), ('-' : Char) ∉ a → pyInt a = some n →
        expandToken a = some [n - 1]) ∧
    (∀ (a b : List Char) (i j : Int), ('-' : Char) ∉ a → ('-' : Char) ∉ b →
        pyInt a = some i → pyInt b = some j →
        expandToken (a ++ '-' :: b) =
          some ((List.range (j + 1 - i).toNat).map (fun k => i - 1 + k))) ∧
    expand_indices "1-4 7-10 22" = some [0, 1, 2, 3, 6, 7, 8, 9, 21] ∧
    expand_indices "3" = some [2] ∧
    expand_indices "2-2" = some [1] ∧
    expand_indices "" = some [] := by
  refine ⟨?_, ?_, by decide, by decide, by decide, by decide⟩
  · intro a n ha h
    exact expandToken_single ha h
  · intro a b i j ha hb hia hjb
    rw [expandToken_range_tok ha hb hia hjb]
    have harith : j - (i - 1) = j + 1 - i := by ring
    simp [intRange, harith]

/-- Witness for C3 at concrete tokens: `"3"` expands to `[2]` and `"7-9"`
expands to `[6, 7, 8]`. -/
theorem C3_expand_indices_tokenwise_witness :
    expandToken "3".data = some [(3 : Int) - 1] ∧
    expandToken ("7".data ++ '-' :: "9".data) =
      some ((List.range ((9 : Int) + 1 - 7).toNat).map (fun k => (7 : Int) - 1 + k)) :=
  ⟨C3_expand_indices_tokenwise.1 "3".data 3 (by decide) (by decide),
   C3_expand_indices_tokenwise.2.1 "7".data "9".data 7 9
     (by decide) (by decide) (by decide) (by decide)⟩

/-- C7: a descending range token `"i-j"` with `i > j` (for example `"5-2"`)
contributes an empty sub-sequence: the range is not normalized or reversed
and no indices are emitted for it. -/
theorem C7_descending_range_empty :
    (∀ (a b : List Char) (i j : Int), ('-' : Char) ∉ a → ('-' : Char) ∉ b →
        pyInt a = some i → pyInt b = some j → j < i →
        expandToken (a ++ '-' :: b) = some []) ∧
    expand_indices "5-2" = some [] := by
  refine ⟨?_, by decide⟩
  intro a b i j ha hb hia hjb hlt
  rw [expandToken_range_tok ha hb hia hjb, intRange_eq_nil (by omega)]

/-- Witness for C7 at the concrete token `"5-2"`. -/
theorem C7_descending_range_empty_witness :
    expandToken ("5".data ++ '-' :: "2".data) = some [] :=
  C7_descending_range_empty.1 "5".data "2".data 5 2
    (by decide) (by decide) (by decide) (by decide) (by decide)

/-- C6: a range-spec token that is neither a valid integer nor a valid
`int-int` pair (for example `"abc"` or `"3-"`) makes `expand_indices` fail
with a value-parsing error (`none`), and that failure propagates uncaught
through `run` to its caller whenever such a marker line is processed. -/
theorem C6_malformed_token_propagates :
    expand_indices "abc" = none ∧
    expand_indices "3-" = none ∧
    (∀ (pp : String) (fs : String → Option (List String)) (lines : List String)
        (line spc rng src : String),
        line ∈ lines → matchMarker line = some (spc, rng, src) →
        expand_indices rng = none → run pp fs lines = none) := by
  refine ⟨by decide, by decide, ?_⟩
  intro pp fs lines line spc rng src hmem hm hr
  induction lines with
  | nil => cases hmem
  | cons l t ih =>
    rw [run]
    rcases List.mem_cons.mp hmem with rfl | hmem'
    · have hp : processLine pp fs line = none := by
        simp [processLine, hm, hr]
      rw [hp, combine_none_left]
    · rw [ih hmem', combine_none_right]

/-- Witness for C6: a marker with the malformed range spec `"abc"` makes the
whole pass fail. -/
theorem C6_malformed_token_propagates_witness :
    run "." (fun _ => none) ["&[abc](f)"] = none :=
  C6_malformed_token_propagates.2.2 "." (fun _ => none) ["&[abc](f)"]
    "&[abc](f)" "" "abc" "f" (List.mem_singleton.mpr rfl) (by decide) (by decide)

/-- C9: when no input line matches the marker pattern, `run` returns its
input unchanged (and writes nothing to stderr); hence `run` is idempotent on
already-expanded, marker-free documents. -/
theorem C9_no_marker_identity :
    ∀ (pp : String) (fs : String → Option (List String)) (lines : List String),
      (∀ l ∈ lines, matchMarker l = none) → run pp fs lines = some (lines, []) := by
  intro pp fs lines h
  induction lines with
  | nil => rfl
  | cons l t ih =>
    rw [run, processLine_pass pp fs l (h l (List.mem_cons_self l t)),
        ih (fun x hx => h x (List.mem_cons_of_mem l hx)), combine_some]
    rfl

/-- Witness for C9 on a concrete marker-free document. -/
theorem C9_no_marker_identity_witness :
    run "." (fun _ => none) ["hello", " world "] = some (["hello", " world "], []) :=
  C9_no_marker_identity "." (fun _ => none) ["hello", " world "] (by decide)

/-- C4: for a marker whose resolved path `<base>/<src>` is not found, `run`
contributes zero output lines for that marker, writes exactly one diagnostic
line `ERROR: "<base>/<src>" does not exist.` to the error stream, and
processes the remaining input lines normally. -/
theorem C4_missing_file_dropped (pp : String) (fs : String → Option (List String))
    (pre post : List String) (line spc rng src : String) (idx : List Int)
    (o1 e1 o2 e2 : List String)
    (hm : matchMarker line = some (spc, rng, src))
    (hr : expand_indices rng = some idx)
    (hf : fs (pp ++ "/" ++ src) = none)
    (h1 : run pp fs pre = some (o1, e1))
    (h2 : run pp fs post = some (o2, e2)) :
    run pp fs (pre ++ line :: post) =
      some (o1 ++ o2,
        e1 ++ ("ERROR: \"" ++ pp ++ "/" ++ src ++ "\" does not exist.") :: e2) := by
  rw [run_append, h1, run, processLine_notFound pp fs line spc rng src idx hm hr hf, h2,
      combine_some, combine_some]
  simp

/-- Witness for C4: a missing file drops the marker line, logs one
diagnostic, and leaves the surrounding lines untouched. -/
theorem C4_missing_file_dropped_witness :
    run "." (fun _ => none) (["x"] ++ "&[](f)" :: ["y"]) =
      some (["x"] ++ ["y"],
        [] ++ ("ERROR: \"" ++ "." ++ "/" ++ "f" ++ "\" does not exist.") :: []) :=
  C4_missing_file_dropped "." (fun _ => none) ["x"] ["y"] "&[](f)" "" "" "f" []
    ["x"] [] ["y"] [] (by decide) (by decide) rfl (by decide) (by decide)

/-- C5: a marker with an empty range spec referencing an existing file of `N`
lines is replaced by exactly those `N` lines in original order, each stripped
of leading and trailing whitespace and prefixed with the marker's leading
whitespace. -/
theorem C5_empty_spec_full_file (pp : String) (fs : String → Option (List String))
    (pre post : List String) (line spc src : String) (fl : List String)
    (o1 e1 o2 e2 : List String)
    (hm : matchMarker line = some (spc, "", src))
    (hf : fs (pp ++ "/" ++ src) = some fl)
    (h1 : run pp fs pre = some (o1, e1))
    (h2 : run pp fs post = some (o2, e2)) :
    run pp fs (pre ++ line :: post) =
      some (o1 ++ fl.map (fun l => spc ++ pyStrip l) ++ o2, e1 ++ e2) := by
  rw [run_append, h1, run,
      processLine_found pp fs line spc "" src [] fl hm (by decide) hf, h2,
      combine_some, combine_some]
  simp [markerOutput, markerOutputAux_nil_indices, List.append_assoc]

/-- Witness for C5: an indented all-lines marker splices the whole two-line
file, stripped and re-indented. -/
theorem C5_empty_spec_full_file_witness :
    run "." (fun p => if p = "./f" then some ["a ", " b"] else none)
        ([] ++ "  &[](f)" :: []) =
      some ([] ++ (["a ", " b"].map (fun l => "  " ++ pyStrip l)) ++ [], [] ++ []) :=
  C5_empty_spec_full_file "." (fun p => if p = "./f" then some ["a ", " b"] else none)
    [] [] "  &[](f)" "  " "f" ["a ", " b"] [] [] [] []
    (by decide) (by decide) rfl rfl

/-- C8: indices at or beyond the referenced file's line count are silently
ignored — the marker's output only depends on which in-range positions are in
the index list (given agreement on emptiness) — and a range spec `1-10`
against a one-line file emits exactly that one line, with no error. -/
theorem C8_out_of_range_ignored :
    (∀ (spc : String) (fl : List String) (idx idx' : List Int),
        idx.isEmpty = idx'.isEmpty →
        (∀ k : Nat, k < fl.length → (((k : Int) ∈ idx) ↔ ((k : Int) ∈ idx'))) →
        markerOutput spc idx fl = markerOutput spc idx' fl) ∧
    run "." (fun p => if p = "./f" then some ["hello world"] else none) ["&[1-10](f)"] =
      some (["hello world"], []) := by
  refine ⟨?_, by decide⟩
  intro spc fl idx idx' he hmem
  exact markerOutputAux_ext spc he fl 0 (fun k _ hk => hmem k (by omega))

/-- Witness for C8: replacing the out-of-range index `5` by `7` leaves the
output for a one-line file unchanged. -/
theorem C8_out_of_range_ignored_witness :
    markerOutput "" [0, 5] ["a"] = markerOutput "" [0, 7] ["a"] :=
  C8_out_of_range_ignored.1 "" ["a"] [0, 5] [0, 7] (by decide) (by decide)

/-- C10: the lines a marker emits from an existing file always form a
subsequence of the file's stripped-and-indented lines — file order, each
position at most once — regardless of token order or repetition; in
particular the range spec `"3 1"` cannot reorder the file's lines. -/
theorem C10_file_order_preserved :
    (∀ (spc : String) (idx : List Int) (fl : List String),
        (markerOutput spc idx fl).Sublist (fl.map (fun l => spc ++ pyStrip l))) ∧
    run "." (fun p => if p = "./f" then some ["a", "b", "c"] else none) ["&[3 1](f)"] =
      some (["a", "c"], []) :=
  ⟨fun spc idx fl => markerOutputAux_sublist spc idx fl 0, by decide⟩

/-- C1 counterexample: it is not true that `run` always returns at least as
many lines as its input — a marker line whose file is missing contributes
zero output lines, so the output can be strictly shorter. -/
theorem C1_counterexample :
    ¬ ∀ (pp : String) (fs : String → Option (List String)) (lines out errs : List String),
        run pp fs lines = some (out, errs) → lines.length ≤ out.length := by
  intro h
  have h1 := h "." (fun _ => none) ["&[](f)"] [] ["ERROR: \"./f\" does not exist."]
    (by decide)
  simp at h1

/-- C1 (amended): whenever `run` completes, its output has at least as many
lines as the number of input lines that do not match the marker pattern; in
particular the length is unchanged on marker-free input, but a marker line
may contribute zero lines, so the output can be shorter than the input. -/
theorem C1_output_length_lower_bound (pp : String) (fs : String → Option (List String)) :
    ∀ (lines out errs : List String), run pp fs lines = some (out, errs) →
      (lines.filter (fun l => (matchMarker l).isNone)).length ≤ out.length := by
  intro lines
  induction lines with
  | nil =>
    intro out errs h
    rw [run] at h
    simp only [Option.some.injEq, Prod.mk.injEq] at h
    obtain ⟨ho, -⟩ := h
    simp [← ho]
  | cons l t ih =>
    intro out errs h
    rw [run] at h
    cases hp : processLine pp fs l with
    | none => rw [hp, combine_none_left] at h; cases h
    | some p =>
      cases hq : run pp fs t with
      | none => rw [hp, hq, combine_none_right] at h; cases h
      | some q =>
        rw [hp, hq, combine_some] at h
        simp only [Option.some.injEq, Prod.mk.injEq] at h
        obtain ⟨ho, -⟩ := h
        have ht := ih q.1 q.2 (by rw [hq])
        rw [List.filter_cons, ← ho]
        by_cases hl : matchMarker l = none
        · have hpl := processLine_pass pp fs l hl
          rw [hp] at hpl
          injection hpl with hpl'
          subst hpl'
          simp only [hl, Option.isNone_none, if_true, List.singleton_append,
            List.length_cons]
          omega
        · rw [if_neg (by simp [Option.isNone_iff_eq_none, hl])]
          simp only [List.length_append]
          omega

/-- Witness for C1 (amended) on a document with one passthrough line and one
marker whose file is missing. -/
theorem C1_output_length_lower_bound_witness :
    ((["a", "&[](f)"].filter (fun l => (matchMarker l).isNone)).length ≤
      (["a"] : List String).length) :=
  C1_output_length_lower_bound "." (fun _ => none) ["a", "&[](f)"] ["a"]
    ["ERROR: \"./f\" does not exist."] (by decide)

/-- C2 counterexample: a range spec repeating the token `2` produces the
duplicated index list `[1, 1]`, yet the referenced line is emitted exactly
once, not twice. -/
theorem C2_counterexample :
    expand_indices "2 2" = some [1, 1] ∧
    run "." (fun p => if p = "./f" then some ["a", "b", "c"] else none) ["&[2 2](f)"] =
      some (["b"], []) ∧
    (["b"] : List String).count "b" = 1 :=
  ⟨by decide, by decide, by decide⟩

/-- C2 (amended): repeating a token repeats the zero-based index in the Line
Index Set, but the per-file-line membership test emits each source line at
most once per marker: duplicating the whole index list never changes the
marker's output. -/
theorem C2_duplicate_indices_single_emission :
    expand_indices "3 3" = some [2, 2] ∧
    ∀ (spc : String) (idx : List Int) (fl : List String),
      markerOutput spc (idx ++ idx) fl = markerOutput spc idx fl := by
  refine ⟨by decide, ?_⟩
  intro spc idx fl
  have he : (idx ++ idx).isEmpty = idx.isEmpty := by
    cases idx <;> simp
  exact markerOutputAux_ext spc he fl 0 (fun k _ _ => by simp)

/-- Witness for C2 (amended): duplicating the index list `[2]` leaves the
marker output on a three-line file unchanged. -/
theorem C2_duplicate_indices_single_emission_witness :
    markerOutput "" ([2] ++ [2]) ["a", "b", "c"] = markerOutput "" [2] ["a", "b", "c"] :=
  C2_duplicate_indices_single_emission.2 "" [2] ["a", "b", "c"]

/-- Witness for C10: the output for index list `[2, 0]` is a subsequence of
the three-line file's stripped lines. -/
theorem C10_file_order_preserved_witness :
    (markerOutput "" [2, 0] ["a", "b", "c"]).Sublist
      (["a", "b", "c"].map (fun l => "" ++ pyStrip l)) :=
  C10_file_order_preserved.1 "" [2, 0] ["a", "b", "c"]
